import Mathlib

/-!
# Real-Time Scratchpad (`projects/reactapp/app.jsx`)

A shallow embedding of the `App` component: its six `useState` cells, the
`onSnapshot` delivery callback, the two mutation callbacks `addNote` and
`deleteNote`, and the `onAuthStateChanged` handler.  Promises settled by the
identity provider and by the store are inputs of the embedded functions; the
requests a callback issues and the errors it reports are part of its result.
-/

namespace Scratchpad

/-! ## Values -/

/-- A timestamp of the store: whole seconds since the epoch and the nanoseconds
within the second.  The component reads `timestamp.seconds` only. -/
structure Timestamp where
  seconds : Int
  nanoseconds : Nat
deriving DecidableEq, Repr

/-- The order of time: `earlier a b` when `a` is before `b`. -/
def earlier (a b : Timestamp) : Prop :=
  a.seconds < b.seconds ∨ (a.seconds = b.seconds ∧ a.nanoseconds < b.nanoseconds)

instance (a b : Timestamp) : Decidable (earlier a b) := by
  unfold earlier
  infer_instance

/-- Result of `doc.data()` for a note document: the two fields `addNote` writes.
`timestamp` is `none` while the server has not assigned it yet (`null`). -/
structure DocumentData where
  text : String
  timestamp : Option Timestamp
deriving DecidableEq, Repr

/-- One element of `snapshot.docs`. -/
structure QueryDocumentSnapshot where
  id : String
  data : DocumentData
deriving DecidableEq, Repr

/-- Argument of the `onSnapshot` callback. -/
structure QuerySnapshot where
  docs : List QueryDocumentSnapshot
deriving DecidableEq, Repr

/-- An element of the `notes` state: `{ id: doc.id, ...doc.data() }`. -/
structure Note where
  id : String
  text : String
  timestamp : Option Timestamp
deriving DecidableEq, Repr

/-- The Firestore handle stored in the `db` state cell. -/
inductive Firestore where
  | handle
deriving DecidableEq, Repr

/-- The `useState` cells of `App` (lines 21-27). -/
structure AppState where
  db : Option Firestore
  userId : Option String
  isAuthReady : Bool
  notes : List Note
  newNoteText : String
  isLoading : Bool
deriving DecidableEq, Repr

/-- The initial values passed to `useState`. -/
def initialState : AppState :=
  { db := none, userId := none, isAuthReady := false,
    notes := [], newNoteText := "", isLoading := true }

/-! ## `Array.prototype.sort` -/

/-- Insert `a` in front of the first element `b` with `cmp a b ≤ 0`. -/
def sortInsert {α : Type} (cmp : α → α → Int) (a : α) : List α → List α
  | [] => [a]
  | b :: l => if cmp a b ≤ 0 then a :: b :: l else b :: sortInsert cmp a l

/-- `Array.prototype.sort(cmp)`: the stable sort by the comparator `cmp`, where
`cmp a b < 0` puts `a` first and elements that compare equal keep their order. -/
def arraySort {α : Type} (cmp : α → α → Int) : List α → List α
  | [] => []
  | a :: l => sortInsert cmp a (arraySort cmp l)

/-! ## The `onSnapshot` callback (lines 76-84) -/

/-- The mapping `doc => ({ id: doc.id, ...doc.data() })`. -/
def toNote (d : QueryDocumentSnapshot) : Note :=
  { id := d.id, text := d.data.text, timestamp := d.data.timestamp }

/-- The expression `x.timestamp?.seconds || 0`: an absent timestamp gives
`undefined`, and `undefined` and `0` are both replaced by `0`. -/
def secondsOrZero (n : Note) : Int :=
  match n.timestamp with
  | none => 0
  | some t => if t.seconds ≠ 0 then t.seconds else 0

/-- The comparator `(a, b) => (b.timestamp?.seconds || 0) - (a.timestamp?.seconds || 0)`. -/
def compareNotes (a b : Note) : Int :=
  secondsOrZero b - secondsOrZero a

/-- The list built by the callback: map, then sort. -/
def fetchedNotes (snapshot : QuerySnapshot) : List Note :=
  arraySort compareNotes (snapshot.docs.map toNote)

/-- The `onSnapshot` success callback: `setNotes(fetchedNotes)`. -/
def onSnapshotCallback (s : AppState) (snapshot : QuerySnapshot) : AppState :=
  { s with notes := fetchedNotes snapshot }

/-! ## Module constants and JavaScript helpers -/

/-- The globals the page may define before the module is loaded; `none` is
`typeof x === 'undefined'`. -/
structure Globals where
  app_id : Option String
  initial_auth_token : Option String
deriving DecidableEq, Repr

/-- The constant `appId` (line 13). -/
def appId (g : Globals) : String :=
  match g.app_id with
  | some v => v
  | none => "default-app-id"

/-- The constant `initialAuthToken` (line 15). -/
def initialAuthToken (g : Globals) : Option String :=
  match g.initial_auth_token with
  | some v => some v
  | none => none

/-- The function `getNoteCollectionPath` (lines 17-18). -/
def getNoteCollectionPath (g : Globals) (uid : String) : String :=
  "artifacts/" ++ appId g ++ "/users/" ++ uid ++ "/notes"

/-- Truthiness of a value that is `null` or a string: `null` and `''` are falsy. -/
def truthy : Option String → Bool
  | none => false
  | some v => v != ""

/-- The code points `String.prototype.trim` removes: WhiteSpace and LineTerminator. -/
def isTrimmed (c : Char) : Bool :=
  let n := c.toNat
  n == 0x09 || n == 0x0A || n == 0x0B || n == 0x0C || n == 0x0D || n == 0x20 ||
  n == 0xA0 || n == 0x1680 || (0x2000 ≤ n && n ≤ 0x200A) || n == 0x2028 ||
  n == 0x2029 || n == 0x202F || n == 0x205F || n == 0x3000 || n == 0xFEFF

/-- The method `String.prototype.trim`. -/
def jsTrim (s : String) : String :=
  String.mk ((s.data.dropWhile isTrimmed).reverse.dropWhile isTrimmed).reverse

/-! ## Requests and results -/

/-- The value written to the `timestamp` field of a new document: the
`serverTimestamp()` sentinel, or a concrete time chosen by the client. -/
inductive TimestampField where
  | serverTimestamp
  | clientValue (t : Timestamp)
deriving DecidableEq, Repr

/-- A request sent to the store. -/
inductive StoreRequest where
  | addDoc (collectionPath : String) (text : String) (timestamp : TimestampField)
  | deleteDoc (collectionPath : String) (id : String)
deriving DecidableEq, Repr

/-- What one run of `addNote` or `deleteNote` does: the state it leaves, the
requests it issued, its `console.error` calls (message, error), and the error
that escapes the callback, if any. -/
structure CallResult where
  state : AppState
  requests : List StoreRequest
  logged : List (String × String)
  thrown : Option String
deriving DecidableEq, Repr

/-- The early `return` of a mutation callback. -/
def rejected (s : AppState) : CallResult :=
  { state := s, requests := [], logged := [], thrown := none }

/-! ## `handleNoteChange`, `addNote`, `deleteNote` (lines 92-122) -/

/-- The callback `handleNoteChange`: `setNewNoteText(event.target.value)`. -/
def handleNoteChange (s : AppState) (value : String) : AppState :=
  { s with newNoteText := value }

/-- The callback `addNote`.  `addDocResult` is how the promise of `addDoc` settles
(`Except.error` is a rejection); it is only awaited when the guard of line 98
lets the call through. -/
def addNote (g : Globals) (s : AppState) (addDocResult : Except String Unit) : CallResult :=
  match s.db, s.userId with
  | some _, some uid =>
    if jsTrim s.newNoteText = "" ∨ uid = "" then rejected s
    else
      let request := StoreRequest.addDoc (getNoteCollectionPath g uid)
        (jsTrim s.newNoteText) TimestampField.serverTimestamp
      match addDocResult with
      | Except.ok _ =>
        { state := { s with newNoteText := "" }, requests := [request],
          logged := [], thrown := none }
      | Except.error e =>
        { state := s, requests := [request],
          logged := [("Error adding note:", e)], thrown := none }
  | _, _ => rejected s

/-- The call `path.split('/')` on the characters of a path. -/
def splitSlash : List Char → List (List Char)
  | [] => [[]]
  | c :: cs =>
    if c = '/' then [] :: splitSlash cs
    else
      match splitSlash cs with
      | seg :: segs => (c :: seg) :: segs
      | [] => [[c]]

/-- The test `path.indexOf('//') >= 0`. -/
def hasDoubleSlash : List Char → Bool
  | [] => false
  | c :: cs => (c == '/' && cs.head? == some '/') || hasDoubleSlash cs

/-- The store's `ResourcePath.fromString(...pathComponents)`: a component that
contains `//` is an error, the others contribute their non-empty segments. -/
def resourcePathFromString : List String → Except String (List String)
  | [] => Except.ok []
  | path :: rest =>
    if hasDoubleSlash path.data then
      Except.error ("Invalid segment (" ++ path ++ "). Paths must not contain // in them.")
    else
      match resourcePathFromString rest with
      | Except.ok segments =>
        Except.ok
          (((splitSlash path.data).filter (fun seg => seg.length > 0)).map String.mk ++ segments)
      | Except.error e => Except.error e

/-- The store's `doc(db, path, id)`: it throws on an empty `path`, on a component
with `//`, and when the segments of `path` and `id` together are odd in
number; otherwise it returns the reference, here its segments. -/
def doc (path : String) (id : String) : Except String (List String) :=
  if path = "" then Except.error "Function doc() cannot be called with an empty path."
  else
    match resourcePathFromString [path, id] with
    | Except.error e => Except.error e
    | Except.ok segments =>
      if segments.length % 2 = 0 then Except.ok segments
      else
        Except.error
          "Invalid document reference. Document references must have an even number of segments."

/-- The callback `deleteNote`.  `doc(...)` is called inside the `try`, so an
error it throws is caught and logged and `deleteDoc` is not reached;
`deleteDocResult` is how the promise of `deleteDoc` settles. -/
def deleteNote (g : Globals) (s : AppState) (id : String)
    (deleteDocResult : Except String Unit) : CallResult :=
  match s.db, s.userId with
  | some _, some uid =>
    if uid = "" then rejected s
    else
      match doc (getNoteCollectionPath g uid) id with
      | Except.error e =>
        { state := s, requests := [], logged := [("Error deleting note:", e)],
          thrown := none }
      | Except.ok _ =>
        let request := StoreRequest.deleteDoc (getNoteCollectionPath g uid) id
        match deleteDocResult with
        | Except.ok _ =>
          { state := s, requests := [request], logged := [], thrown := none }
        | Except.error e =>
          { state := s, requests := [request],
            logged := [("Error deleting note:", e)], thrown := none }
  | _, _ => rejected s

/-! ## The `onAuthStateChanged` handler (lines 37-60) -/

/-- The `user` of the provider: only `uid` is read. -/
structure User where
  uid : String
deriving DecidableEq, Repr

/-- A sign-in call made by the handler. -/
inductive SignIn where
  | withCustomToken (token : String)
  | anonymously
deriving DecidableEq, Repr

/-- What the provider does during one run of the handler: how each awaited
sign-in settles, and the value of `firebaseAuth.currentUser` read in the
`catch` block. -/
structure AuthEnv where
  customToken : Except String User
  anonymous : Except String User
  currentUser : Option User
  anonymousFallback : Except String User

/-- What one run of the handler does: the state it leaves, the sign-in calls it
made in order, its `console.error` calls, and the error with which the
promise of the `async` handler rejects, if any. -/
structure AuthResult where
  state : AppState
  attempts : List SignIn
  logged : List (String × String)
  thrown : Option String
deriving DecidableEq, Repr

/-- The sign-in awaited in the `try` block (lines 43-49), with how it settles. -/
def firstAttempt (g : Globals) (env : AuthEnv) : SignIn × Except String User :=
  match initialAuthToken g with
  | some token =>
    if token ≠ "" then (SignIn.withCustomToken token, env.customToken)
    else (SignIn.anonymously, env.anonymous)
  | none => (SignIn.anonymously, env.anonymous)

/-- The handler passed to `onAuthStateChanged`. -/
def onAuthStateChangedCallback (g : Globals) (s : AppState) (user : Option User)
    (env : AuthEnv) : AuthResult :=
  match user with
  | some u =>
    { state := { s with userId := some u.uid, isAuthReady := true, isLoading := false },
      attempts := [], logged := [], thrown := none }
  | none =>
    match firstAttempt g env with
    | (attempt, Except.ok u) =>
      { state := { s with userId := some u.uid, isAuthReady := true, isLoading := false },
        attempts := [attempt], logged := [], thrown := none }
    | (attempt, Except.error e) =>
      let logged := [("Authentication error, signing in anonymously as fallback:", e)]
      match env.currentUser with
      | some _ =>
        { state := { s with isAuthReady := true, isLoading := false },
          attempts := [attempt], logged := logged, thrown := none }
      | none =>
        match env.anonymousFallback with
        | Except.ok u =>
          { state := { s with userId := some u.uid, isAuthReady := true, isLoading := false },
            attempts := [attempt, SignIn.anonymously], logged := logged, thrown := none }
        | Except.error e2 =>
          { state := s, attempts := [attempt, SignIn.anonymously],
            logged := logged, thrown := some e2 }

/-! ## The initialisation effect (lines 29-68) and rendering (lines 124-134) -/

/-- How the `try` block of the first effect ends: an exception before
`setDb`, an exception after it, or the auth listener registered. -/
inductive InitOutcome where
  | throwsBeforeSetDb
  | throwsAfterSetDb
  | listening
deriving DecidableEq, Repr

/-- The first effect. -/
def initEffect (s : AppState) : InitOutcome → AppState
  | InitOutcome.throwsBeforeSetDb => { s with isLoading := false }
  | InitOutcome.throwsAfterSetDb => { s with db := some Firestore.handle, isLoading := false }
  | InitOutcome.listening => { s with db := some Firestore.handle }

/-- What `App` returns: the loading screen, or the scratchpad. -/
inductive View where
  | connecting
  | scratchpad (userId : Option String) (notes : List Note)
deriving DecidableEq, Repr

/-- The `return` of `App`. -/
def render (s : AppState) : View :=
  if s.isLoading then View.connecting else View.scratchpad s.userId s.notes

/-! ## Runs of the component -/

/-- What can happen to the component. -/
inductive Event where
  | init (outcome : InitOutcome)
  | authStateChanged (user : Option User) (env : AuthEnv)
  | snapshot (snapshot : QuerySnapshot)
  | noteChange (value : String)
  | addNote (addDocResult : Except String Unit)
  | deleteNote (id : String) (deleteDocResult : Except String Unit)

/-- The state after an event. -/
def step (g : Globals) (s : AppState) : Event → AppState
  | Event.init outcome => initEffect s outcome
  | Event.authStateChanged user env => (onAuthStateChangedCallback g s user env).state
  | Event.snapshot snapshot => onSnapshotCallback s snapshot
  | Event.noteChange value => handleNoteChange s value
  | Event.addNote r => (addNote g s r).state
  | Event.deleteNote id r => (deleteNote g s id r).state

/-- When an event can happen: the first effect runs once, on the initial state;
the auth handler is registered after `setDb`; the snapshot listener exists
under the guard of line 71. -/
def enabled (s : AppState) : Event → Prop
  | Event.init _ => s = initialState
  | Event.authStateChanged _ _ => s.db ≠ none
  | Event.snapshot _ => s.db ≠ none ∧ s.isAuthReady = true ∧ truthy s.userId = true
  | Event.noteChange _ => True
  | Event.addNote _ => True
  | Event.deleteNote _ _ => True

/-- The states the component can be in. -/
inductive Reachable (g : Globals) : AppState → Prop where
  | start : Reachable g initialState
  | next {s : AppState} (e : Event) : Reachable g s → enabled s e → Reachable g (step g s e)

/-! ## The subscription effect (lines 70-90) -/

/-- A listener attached to the store by `onSnapshot(q, ...)`: the handle that
its `unsubscribe` function detaches, and the collection path of the query. -/
structure Subscription where
  handle : Nat
  path : String
deriving DecidableEq, Repr

/-- The component together with what React and the store hold for it: whether
it is mounted, the listeners attached to the store, the cleanup function
returned by the last run of the effect (`() => unsubscribe()`, as the handle
it detaches), and the number of listeners attached so far. -/
structure Component where
  app : AppState
  mounted : Bool
  listeners : List Subscription
  cleanup : Option Nat
  opened : Nat
deriving DecidableEq, Repr

/-- The dependency array `[db, isAuthReady, userId]`. -/
def effectDeps (s : AppState) : Option Firestore × Bool × Option String :=
  (s.db, s.isAuthReady, s.userId)

/-- The body of the effect: return without a cleanup under the guard of line
71, otherwise attach a listener to `getNoteCollectionPath(userId)` and return
the cleanup that detaches it. -/
def subscriptionEffect (g : Globals) (c : Component) : Component :=
  match c.app.db, c.app.userId with
  | some _, some uid =>
    if c.app.isAuthReady = false ∨ uid = "" then { c with cleanup := none }
    else
      { c with listeners := c.listeners ++ [⟨c.opened, getNoteCollectionPath g uid⟩],
               cleanup := some c.opened, opened := c.opened + 1 }
  | _, _ => { c with cleanup := none }

/-- Running the cleanup of the last run of the effect: `unsubscribe()` detaches
the listener of that run. -/
def runCleanup (c : Component) : Component :=
  match c.cleanup with
  | some h => { c with listeners := c.listeners.filter (fun l => l.handle ≠ h), cleanup := none }
  | none => c

/-- The first render: the effect runs on the initial state. -/
def mount (g : Globals) : Component :=
  subscriptionEffect g
    { app := initialState, mounted := true, listeners := [], cleanup := none, opened := 0 }

/-- A render with the new state `app`: when a dependency of the effect has
changed, its cleanup runs and then the effect runs again. -/
def rerender (g : Globals) (c : Component) (app : AppState) : Component :=
  if effectDeps app = effectDeps c.app then { c with app := app }
  else subscriptionEffect g (runCleanup { c with app := app })

/-- The store has the snapshot `snapshot` for the listener `handle`: it calls
the callback of that listener if the listener is still attached, and drops the
snapshot if `unsubscribe` has detached it. -/
def deliver (g : Globals) (c : Component) (handle : Nat) (snapshot : QuerySnapshot) :
    Component :=
  if c.listeners.any (fun l => l.handle = handle) then
    rerender g c (onSnapshotCallback c.app snapshot)
  else c

/-- Unmounting the component runs the cleanup of the effect. -/
def unmount (c : Component) : Component :=
  runCleanup { c with mounted := false }

/-- What can happen to the mounted component and its listeners. -/
inductive Action where
  | event (e : Event)
  | deliver (handle : Nat) (snapshot : QuerySnapshot)
  | unmount

/-- The component after an action. -/
def act (g : Globals) (c : Component) : Action → Component
  | Action.event e => if c.mounted then rerender g c (step g c.app e) else c
  | Action.deliver handle snapshot => deliver g c handle snapshot
  | Action.unmount => if c.mounted then unmount c else c

/-- When an action can happen.  The callback of a listener is only called by
the store, through `Action.deliver`. -/
def allowed (c : Component) : Action → Prop
  | Action.event (Event.snapshot _) => False
  | Action.event e => c.mounted = true ∧ enabled c.app e
  | Action.deliver _ _ => True
  | Action.unmount => c.mounted = true

/-- The invariant of the effect: either no listener is attached and there is no
cleanup to run, or exactly one listener is attached, the pending cleanup
detaches it, the component is mounted, and the listener is on the collection
of the identity that `userId` holds. -/
def SingleScoped (g : Globals) (c : Component) : Prop :=
  (c.cleanup = none ∧ c.listeners = []) ∨
  (∃ h uid, c.cleanup = some h ∧ c.listeners = [⟨h, getNoteCollectionPath g uid⟩] ∧
    c.mounted = true ∧ c.app.userId = some uid ∧ uid ≠ "" ∧ h < c.opened)

/-- The listener `k` has been attached at some time and is detached. -/
def Closed (k : Nat) (c : Component) : Prop :=
  k < c.opened ∧ ∀ l ∈ c.listeners, l.handle ≠ k

/-- The runs of the component: `Run g c d` when `d` is reached from `c`. -/
inductive Run (g : Globals) : Component → Component → Prop where
  | refl (c : Component) : Run g c c
  | tail {c d : Component} (a : Action) : Run g c d → allowed d a → Run g c (act g d a)

end Scratchpad

/-!
# Attendance tracker (`projects/attendancetracker/script.js`)

The variables `attendees` and `nextId` of the `DOMContentLoaded` handler, the
text field `nameInput` and the `localStorage` item, with the three event
handlers `addAttendee`, `cycleStatus` and `deleteAttendee`.
-/

namespace AttendanceTracker

/-! ## Numbers -/

/-- The number 2^53: from there on not every integer is a number of the
language (an IEEE 754 double). -/
def twoPow53 : Nat := 9007199254740992

/-- The unit in the last place of the double nearest to `m`: the least power of
two `u`, searched upwards from `u`, with `m / u < 2^53`.  The 1024 steps that
`roundNat` allows cover every finite double. -/
def ulpFrom : Nat → Nat → Nat → Nat
  | 0, _, u => u
  | fuel + 1, m, u => if m / u < twoPow53 then u else ulpFrom fuel m (2 * u)

/-- The double nearest to the natural number `m`, ties to the even significand:
the result of an arithmetic operation whose exact value is `m`. -/
def roundNat (m : Nat) : Nat :=
  if m < twoPow53 then m
  else
    let ulp := ulpFrom 1024 m 1
    let q := m / ulp
    let r := m % ulp
    if ulp < 2 * r ∨ (2 * r = ulp ∧ q % 2 = 1) then (q + 1) * ulp else q * ulp

/-- The double nearest to the integer `n`. -/
def toNumber : Int → Int
  | Int.ofNat m => Int.ofNat (roundNat m)
  | Int.negSucc m => - Int.ofNat (roundNat (m + 1))

/-- The test `Number.isSafeInteger`: the integers of absolute value below 2^53. -/
def SafeInteger (n : Int) : Prop :=
  -(twoPow53 : Int) < n ∧ n < (twoPow53 : Int)

instance (n : Int) : Decidable (SafeInteger n) := by
  unfold SafeInteger
  infer_instance

/-! ## The page -/

/-- An element of `attendees`.  The `id` is a number with an integer value; ids
with a fraction are not modelled. -/
structure Attendee where
  id : Int
  name : String
  status : String
deriving DecidableEq, Repr

/-- The variables `attendees` and `nextId`, the value of the text field, and the
`localStorage` item `attendees` as a list (`none` when the item is absent). -/
structure State where
  attendees : List Attendee
  nextId : Int
  nameInput : String
  stored : Option (List Attendee)
deriving DecidableEq, Repr

/-- The list used when nothing is stored (lines 6-10). -/
def defaultAttendees : List Attendee :=
  [⟨1, "Alice Johnson", "Present"⟩, ⟨2, "Bob Smith", "Absent"⟩, ⟨3, "Charlie Brown", "Late"⟩]

/-- The value of `attendees` after line 6: the parsed item, in which
`JSON.parse` reads every id as the nearest number, or the default list when
the item is `null`. -/
def initialAttendees (stored : Option (List Attendee)) : List Attendee :=
  match stored with
  | some l => l.map (fun a => { a with id := toNumber a.id })
  | none => defaultAttendees

/-- The call `Math.max(x, ...xs)` on a non-empty argument list. -/
def mathMax (x : Int) (xs : List Int) : Int :=
  xs.foldl max x

/-- The initial value of `nextId` (line 11): 1 for the empty list, otherwise the
greatest id plus one, rounded to a number. -/
def initialNextId (attendees : List Attendee) : Int :=
  match attendees.map (fun a => a.id) with
  | [] => 1
  | x :: xs => toNumber (mathMax x xs + 1)

/-- The function `saveAttendees`. -/
def saveAttendees (s : State) : State :=
  { s with stored := some s.attendees }

/-- The characters that `classList.add` refuses in a token: ASCII whitespace. -/
def isAsciiWhitespace (c : Char) : Bool :=
  c = '\t' ∨ c = '\n' ∨ c = '\x0c' ∨ c = '\r' ∨ c = ' '

/-- The function `renderTable`: the rows are rebuilt from `attendees`, then
`saveAttendees()` is called.  For a status with whitespace `classList.add`
(line 26) throws, the exception leaves `renderTable` and `saveAttendees()` is
not reached. -/
def renderTable (s : State) : State :=
  if s.attendees.any (fun a => a.status.data.any isAsciiWhitespace) then s
  else saveAttendees s

/-- The `DOMContentLoaded` handler: `stored` is the `localStorage` item. -/
def init (stored : Option (List Attendee)) : State :=
  renderTable
    { attendees := initialAttendees stored,
      nextId := initialNextId (initialAttendees stored), nameInput := "",
      stored := stored }

/-- The handler `addAttendee`: the new attendee gets the value of `nextId`, and
`nextId++` stores that value plus one, rounded to a number. -/
def addAttendee (s : State) : State :=
  let name := Scratchpad.jsTrim s.nameInput
  if name ≠ "" then
    renderTable
      { s with attendees := s.attendees ++ [⟨s.nextId, name, "Absent"⟩],
               nextId := toNumber (s.nextId + 1), nameInput := "" }
  else s

/-- The `switch` of `cycleStatus` (lines 66-77). -/
def nextStatus (currentStatus : String) : String :=
  if currentStatus = "Absent" then "Present"
  else if currentStatus = "Present" then "Late"
  else "Absent"

/-- The assignment `attendee.status = newStatus` on the first attendee with the
given id, the one `attendees.find` returns. -/
def setStatusOfFirst (id : Int) : List Attendee → List Attendee
  | [] => []
  | a :: l =>
    if a.id = id then { a with status := nextStatus a.status } :: l
    else a :: setStatusOfFirst id l

/-- The handler `cycleStatus`; `id` is `parseInt(e.target.dataset.id)`, with
`none` for `NaN`. -/
def cycleStatus (s : State) (id : Option Int) : State :=
  match id with
  | none => s
  | some i =>
    match s.attendees.find? (fun a => a.id = i) with
    | some _ => saveAttendees { s with attendees := setStatusOfFirst i s.attendees }
    | none => s

/-- The handler `deleteAttendee`; `id` is `parseInt(e.target.dataset.id)`, with
`none` for `NaN`. -/
def deleteAttendee (s : State) (id : Option Int) : State :=
  renderTable { s with attendees := s.attendees.filter (fun a => some a.id ≠ id) }

/-- What the user can do on the page. -/
inductive Event where
  | input (value : String)
  | addAttendee
  | cycleStatus (id : Option Int)
  | deleteAttendee (id : Option Int)
deriving DecidableEq, Repr

/-- The state after an event. -/
def step (s : State) : Event → State
  | Event.input value => { s with nameInput := value }
  | Event.addAttendee => addAttendee s
  | Event.cycleStatus id => cycleStatus s id
  | Event.deleteAttendee id => deleteAttendee s id

/-- The state after a sequence of events. -/
def run (s : State) (events : List Event) : State :=
  events.foldl step s

/-- The predicate of id freshness: `nextId` is greater than every id in use. -/
def Fresh (s : State) : Prop :=
  ∀ a ∈ s.attendees, a.id < s.nextId

instance (s : State) : Decidable (Fresh s) := by
  unfold Fresh
  infer_instance

end AttendanceTracker

namespace Scratchpad

/-! ## Lemmas on `arraySort` -/

theorem mem_sortInsert {α : Type} (cmp : α → α → Int) (a x : α) (l : List α) :
    x ∈ sortInsert cmp a l ↔ x = a ∨ x ∈ l := by
  induction l with
  | nil => simp [sortInsert]
  | cons b l ih =>
    unfold sortInsert
    split
    · simp
    · simp only [List.mem_cons, ih]
      tauto

theorem sortInsert_perm {α : Type} (cmp : α → α → Int) (a : α) (l : List α) :
    (sortInsert cmp a l).Perm (a :: l) := by
  induction l with
  | nil => simp [sortInsert]
  | cons b l ih =>
    unfold sortInsert
    split
    · exact List.Perm.refl _
    · exact (List.Perm.cons b ih).trans (List.Perm.swap a b l)

theorem arraySort_perm {α : Type} (cmp : α → α → Int) (l : List α) :
    (arraySort cmp l).Perm l := by
  induction l with
  | nil => simp [arraySort]
  | cons a l ih =>
    unfold arraySort
    exact (sortInsert_perm cmp a _).trans (List.Perm.cons a ih)

/-- Inserting into a list that is descending by `secondsOrZero` keeps it so. -/
theorem sortInsert_descending (a : Note) (l : List Note)
    (h : l.Pairwise (fun x y => secondsOrZero y ≤ secondsOrZero x)) :
    (sortInsert compareNotes a l).Pairwise (fun x y => secondsOrZero y ≤ secondsOrZero x) := by
  induction l with
  | nil => simp [sortInsert]
  | cons b l ih =>
    rw [List.pairwise_cons] at h
    unfold sortInsert
    split
    · rename_i hab
      have hba : secondsOrZero b ≤ secondsOrZero a := by
        unfold compareNotes at hab
        omega
      refine List.pairwise_cons.mpr ⟨?_, List.pairwise_cons.mpr h⟩
      intro x hx
      rcases List.mem_cons.mp hx with rfl | hx
      · exact hba
      · exact le_trans (h.1 x hx) hba
    · rename_i hab
      have hlt : secondsOrZero a ≤ secondsOrZero b := by
        unfold compareNotes at hab
        omega
      refine List.pairwise_cons.mpr ⟨?_, ih h.2⟩
      intro x hx
      rcases (mem_sortInsert compareNotes a x l).mp hx with rfl | hx
      · exact hlt
      · exact h.1 x hx

/-- The stored list is descending (weakly) by `secondsOrZero`. -/
theorem fetchedNotes_descending (snapshot : QuerySnapshot) :
    (fetchedNotes snapshot).Pairwise (fun x y => secondsOrZero y ≤ secondsOrZero x) := by
  unfold fetchedNotes
  induction snapshot.docs.map toNote with
  | nil => simp [arraySort]
  | cons a l ih =>
    unfold arraySort
    exact sortInsert_descending a _ ih

/-- The stored list is a permutation of the mapped documents. -/
theorem fetchedNotes_perm (snapshot : QuerySnapshot) :
    (fetchedNotes snapshot).Perm (snapshot.docs.map toNote) :=
  arraySort_perm compareNotes _

/-- On an assigned timestamp `secondsOrZero` is its `seconds`. -/
theorem secondsOrZero_of_some (n : Note) (t : Timestamp) (h : n.timestamp = some t) :
    secondsOrZero n = t.seconds := by
  unfold secondsOrZero
  rw [h]
  by_cases h0 : t.seconds = 0 <;> simp [h0]

/-! ## The ordering of the stored list -/

/-- C1, as stated, fails: two records saved in the same second have distinct
timestamps, the comparator sees equal seconds, and the delivery order is kept,
the earlier record first. -/
theorem same_second_order_counterexample :
    (∀ d ∈ [(⟨"a", ⟨"first", some ⟨100, 1⟩⟩⟩ : QueryDocumentSnapshot),
        ⟨"b", ⟨"second", some ⟨100, 2⟩⟩⟩], d.data.timestamp ≠ none) ∧
    [(⟨"a", ⟨"first", some ⟨100, 1⟩⟩⟩ : QueryDocumentSnapshot),
        ⟨"b", ⟨"second", some ⟨100, 2⟩⟩⟩].Pairwise
      (fun d e => d.data.timestamp ≠ e.data.timestamp) ∧
    (onSnapshotCallback initialState
        ⟨[⟨"a", ⟨"first", some ⟨100, 1⟩⟩⟩, ⟨"b", ⟨"second", some ⟨100, 2⟩⟩⟩]⟩).notes
      = [⟨"a", "first", some ⟨100, 1⟩⟩, ⟨"b", "second", some ⟨100, 2⟩⟩] ∧
    ¬ (onSnapshotCallback initialState
        ⟨[⟨"a", ⟨"first", some ⟨100, 1⟩⟩⟩, ⟨"b", ⟨"second", some ⟨100, 2⟩⟩⟩]⟩).notes.Pairwise
      (fun x y => ∃ tx ty, x.timestamp = some tx ∧ y.timestamp = some ty ∧ earlier ty tx) := by
  refine ⟨by decide, by decide, by decide, ?_⟩
  intro h
  have hstored : (onSnapshotCallback initialState
      ⟨[⟨"a", ⟨"first", some ⟨100, 1⟩⟩⟩, ⟨"b", ⟨"second", some ⟨100, 2⟩⟩⟩]⟩).notes
      = [⟨"a", "first", some ⟨100, 1⟩⟩, ⟨"b", "second", some ⟨100, 2⟩⟩] := by decide
  rw [hstored] at h
  obtain ⟨tx, ty, hx, hy, hlt⟩ := (List.pairwise_cons.mp h).1 _ (List.mem_singleton.mpr rfl)
  have hx2 : tx = ⟨100, 1⟩ := (Option.some.inj hx).symm
  have hy2 : ty = ⟨100, 2⟩ := (Option.some.inj hy).symm
  subst hx2 hy2
  revert hlt
  decide

/-- C1, amended: when every delivered record has an assigned timestamp and the
seconds of the timestamps are pairwise distinct, the list stored by the
`onSnapshot` callback is strictly descending by the seconds of the timestamp,
hence by timestamp; and a delivery of `r1` (100 s) and `r2` (200 s), in either
order, stores `[r2, r1]`. -/
theorem onSnapshot_sorted_descending (s : AppState) (snapshot : QuerySnapshot)
    (hassigned : ∀ d ∈ snapshot.docs, d.data.timestamp ≠ none)
    (hdistinct : snapshot.docs.Pairwise (fun d e =>
      d.data.timestamp.map Timestamp.seconds ≠ e.data.timestamp.map Timestamp.seconds)) :
    (onSnapshotCallback s snapshot).notes.Pairwise
        (fun a b => ∃ ta tb, a.timestamp = some ta ∧ b.timestamp = some tb ∧
          tb.seconds < ta.seconds ∧ earlier tb ta) ∧
    ∀ (id1 text1 id2 text2 : String) (n1 n2 : Nat),
      (onSnapshotCallback s
          ⟨[⟨id1, ⟨text1, some ⟨100, n1⟩⟩⟩, ⟨id2, ⟨text2, some ⟨200, n2⟩⟩⟩]⟩).notes
        = [⟨id2, text2, some ⟨200, n2⟩⟩, ⟨id1, text1, some ⟨100, n1⟩⟩] ∧
      (onSnapshotCallback s
          ⟨[⟨id2, ⟨text2, some ⟨200, n2⟩⟩⟩, ⟨id1, ⟨text1, some ⟨100, n1⟩⟩⟩]⟩).notes
        = [⟨id2, text2, some ⟨200, n2⟩⟩, ⟨id1, text1, some ⟨100, n1⟩⟩] := by
  constructor
  · show (fetchedNotes snapshot).Pairwise _
    have hperm := fetchedNotes_perm snapshot
    have hne : (fetchedNotes snapshot).Pairwise (fun a b =>
        a.timestamp.map Timestamp.seconds ≠ b.timestamp.map Timestamp.seconds) := by
      have h1 : (snapshot.docs.map toNote).Pairwise (fun a b =>
          a.timestamp.map Timestamp.seconds ≠ b.timestamp.map Timestamp.seconds) := by
        rw [List.pairwise_map]
        exact hdistinct
      exact hperm.symm.pairwise h1 (fun hab hba => hab hba.symm)
    have hsome : ∀ n ∈ fetchedNotes snapshot, n.timestamp ≠ none := by
      intro n hn
      obtain ⟨d, hd, rfl⟩ := List.mem_map.mp (hperm.mem_iff.mp hn)
      exact hassigned d hd
    refine ((fetchedNotes_descending snapshot).and hne).imp_of_mem ?_
    intro a b ha hb hab
    obtain ⟨hle, hneq⟩ := hab
    cases hta : a.timestamp with
    | none => exact absurd hta (hsome a ha)
    | some ta =>
      cases htb : b.timestamp with
      | none => exact absurd htb (hsome b hb)
      | some tb =>
        rw [secondsOrZero_of_some a ta hta, secondsOrZero_of_some b tb htb] at hle
        have hs : ta.seconds ≠ tb.seconds := by
          intro h
          apply hneq
          rw [hta, htb]
          simp [h]
        have hlt : tb.seconds < ta.seconds := by omega
        exact ⟨ta, tb, rfl, rfl, hlt, Or.inl hlt⟩
  · intro id1 text1 id2 text2 n1 n2
    simp [onSnapshotCallback, fetchedNotes, arraySort, sortInsert, toNote, compareNotes,
      secondsOrZero]

/-- A delivery of three records with the timestamps 100 s, 300 s and 200 s. -/
theorem onSnapshot_sorted_descending_witness :
    (∀ d ∈ [(⟨"a", ⟨"x", some ⟨100, 7⟩⟩⟩ : QueryDocumentSnapshot), ⟨"b", ⟨"y", some ⟨300, 0⟩⟩⟩,
        ⟨"c", ⟨"z", some ⟨200, 5⟩⟩⟩], d.data.timestamp ≠ none) ∧
    (onSnapshotCallback initialState
        ⟨[⟨"a", ⟨"x", some ⟨100, 7⟩⟩⟩, ⟨"b", ⟨"y", some ⟨300, 0⟩⟩⟩,
          ⟨"c", ⟨"z", some ⟨200, 5⟩⟩⟩]⟩).notes.Pairwise
      (fun a b => ∃ ta tb, a.timestamp = some ta ∧ b.timestamp = some tb ∧
        tb.seconds < ta.seconds ∧ earlier tb ta) :=
  ⟨by decide,
   (onSnapshot_sorted_descending initialState
      ⟨[⟨"a", ⟨"x", some ⟨100, 7⟩⟩⟩, ⟨"b", ⟨"y", some ⟨300, 0⟩⟩⟩, ⟨"c", ⟨"z", some ⟨200, 5⟩⟩⟩]⟩
      (by decide) (by decide)).1⟩

/-- C2, as stated, fails: a Pending record delivered first is stored after the
record with an assigned timestamp. -/
theorem pending_before_assigned_counterexample :
    (onSnapshotCallback initialState
        ⟨[⟨"p", ⟨"new", none⟩⟩, ⟨"r1", ⟨"old", some ⟨100, 0⟩⟩⟩]⟩).notes
      = [⟨"r1", "old", some ⟨100, 0⟩⟩, ⟨"p", "new", none⟩] ∧
    ¬ (onSnapshotCallback initialState
        ⟨[⟨"p", ⟨"new", none⟩⟩, ⟨"r1", ⟨"old", some ⟨100, 0⟩⟩⟩]⟩).notes.Pairwise
      (fun a b => ¬ (a.timestamp ≠ none ∧ b.timestamp = none)) := by
  decide

/-- C2, amended: a Pending record is ordered as if its timestamp were 0 seconds.
In the stored list no Pending record stands before a record whose assigned
timestamp is positive, and no record whose assigned timestamp is negative
stands before a Pending record. -/
theorem pending_sorted_as_zero (s : AppState) (snapshot : QuerySnapshot) :
    (onSnapshotCallback s snapshot).notes.Pairwise
      (fun a b =>
        (a.timestamp = none → ∀ t, b.timestamp = some t → t.seconds ≤ 0) ∧
        (b.timestamp = none → ∀ t, a.timestamp = some t → 0 ≤ t.seconds)) := by
  show (fetchedNotes snapshot).Pairwise _
  refine (fetchedNotes_descending snapshot).imp ?_
  intro a b hle
  constructor
  · intro ha t hb
    rw [secondsOrZero_of_some b t hb] at hle
    simpa [secondsOrZero, ha] using hle
  · intro hb t ha
    rw [secondsOrZero_of_some a t ha] at hle
    simpa [secondsOrZero, hb] using hle

/-! ## Wholesale replacement -/

/-- C3: whatever the prior cached list, the list stored by the `onSnapshot`
callback is a permutation of the delivered records, each mapped to its id
plus its data, and it is the same for every prior list; an empty delivery
stores the empty list and a delivery of one record stores exactly that record. -/
theorem onSnapshot_replaces_wholesale (s : AppState) (prior : List Note)
    (snapshot : QuerySnapshot) :
    (onSnapshotCallback s snapshot).notes.Perm
      (snapshot.docs.map (fun d => (⟨d.id, d.data.text, d.data.timestamp⟩ : Note))) ∧
    (onSnapshotCallback { s with notes := prior } snapshot).notes
      = (onSnapshotCallback s snapshot).notes ∧
    (onSnapshotCallback s ⟨[]⟩).notes = [] ∧
    ∀ d : QueryDocumentSnapshot,
      (onSnapshotCallback s ⟨[d]⟩).notes = [⟨d.id, d.data.text, d.data.timestamp⟩] :=
  ⟨fetchedNotes_perm snapshot, rfl, rfl, fun _ => rfl⟩

/-! ## The mutation callbacks -/

/-- C4: when the trimmed text is empty, or `userId` is `null`, or `db` is
`null`, `addNote` issues no request and leaves the state as it was. -/
theorem addNote_rejected (g : Globals) (s : AppState) (r : Except String Unit)
    (h : jsTrim s.newNoteText = "" ∨ s.userId = none ∨ s.db = none) :
    (addNote g s r).requests = [] ∧ (addNote g s r).state = s ∧
    (addNote g s r).thrown = none := by
  unfold addNote
  rcases h with h | h | h
  · cases hdb : s.db <;> cases hu : s.userId <;> simp [rejected, h]
  · cases hdb : s.db <;> simp [rejected, h]
  · simp [rejected, h]

/-- A call with a text of blanks only, an identity and a store handle. -/
theorem addNote_rejected_witness :
    jsTrim " \n\t" = "" ∧
    (addNote ⟨none, none⟩
      { db := some Firestore.handle, userId := some "u1", isAuthReady := true,
        notes := [⟨"r1", "Buy milk", some ⟨100, 0⟩⟩], newNoteText := " \n\t",
        isLoading := false } (Except.ok ())).requests = [] :=
  ⟨by decide,
   (addNote_rejected ⟨none, none⟩
      { db := some Firestore.handle, userId := some "u1", isAuthReady := true,
        notes := [⟨"r1", "Buy milk", some ⟨100, 0⟩⟩], newNoteText := " \n\t",
        isLoading := false } (Except.ok ()) (Or.inl (by decide))).1⟩

/-- The mutation callbacks never write `db`, `userId` or `notes`. -/
theorem addNote_frame (g : Globals) (s : AppState) (r : Except String Unit) :
    (addNote g s r).state.db = s.db ∧ (addNote g s r).state.userId = s.userId ∧
    (addNote g s r).state.notes = s.notes := by
  rcases s with ⟨db, userId, ready, notes, text, loading⟩
  unfold addNote
  cases db <;> cases userId <;> simp only [rejected, and_self]
  split
  · simp
  · cases r <;> simp

theorem deleteNote_frame (g : Globals) (s : AppState) (id : String)
    (r : Except String Unit) : (deleteNote g s id r).state = s := by
  rcases s with ⟨db, userId, ready, notes, text, loading⟩
  unfold deleteNote
  cases db <;> cases userId <;> simp only [rejected]
  split
  · simp
  · split
    · simp
    · cases r <;> simp

/-- The auth handler never writes `db` or `notes`. -/
theorem onAuthStateChangedCallback_frame (g : Globals) (s : AppState) (user : Option User)
    (env : AuthEnv) :
    (onAuthStateChangedCallback g s user env).state.db = s.db ∧
    (onAuthStateChangedCallback g s user env).state.notes = s.notes := by
  unfold onAuthStateChangedCallback
  cases user with
  | some u => simp
  | none =>
    rcases hfa : firstAttempt g env with ⟨attempt, err | ok⟩
    · cases hc : env.currentUser with
      | some _ => simp [hc]
      | none => cases hf : env.anonymousFallback <;> simp [hc, hf]
    · simp

/-- An identity is only ever stored once the store handle is: in every state
the component can be in, `userId` set implies `db` set. -/
theorem reachable_db_of_userId (g : Globals) (s : AppState) (h : Reachable g s) :
    s.userId ≠ none → s.db ≠ none := by
  induction h with
  | start => intro hu; exact absurd rfl hu
  | @next s e _ hen ih =>
    cases e with
    | init outcome =>
      have hs : s = initialState := hen
      subst hs
      cases outcome <;> simp [step, initEffect, initialState]
    | authStateChanged user env =>
      intro _
      have hdb : s.db ≠ none := hen
      show (onAuthStateChangedCallback g s user env).state.db ≠ none
      rw [(onAuthStateChangedCallback_frame g s user env).1]
      exact hdb
    | snapshot snap => exact ih
    | noteChange value => exact ih
    | addNote r =>
      show (addNote g s r).state.userId ≠ none → (addNote g s r).state.db ≠ none
      rw [(addNote_frame g s r).1, (addNote_frame g s r).2.1]
      exact ih
    | deleteNote id r =>
      show (deleteNote g s id r).state.userId ≠ none → (deleteNote g s id r).state.db ≠ none
      rw [deleteNote_frame g s id r]
      exact ih

/-- C5: in every state the component can be in, a call of `addNote` with a text
that is non-empty after trimming and a resolved identity `uid` (`userId` holds
the non-empty string `uid`, so that `!userId` is false) issues exactly one
request: an add to `getNoteCollectionPath(uid)` whose text is the trimmed
input, hence non-empty, and whose timestamp is the server-timestamp sentinel,
not a client value; no error leaves `addNote`. -/
theorem addNote_issues_one_request (g : Globals) (s : AppState) (uid : String)
    (r : Except String Unit) (hreach : Reachable g s) (hid : s.userId = some uid)
    (huid : uid ≠ "") (htext : jsTrim s.newNoteText ≠ "") :
    (addNote g s r).requests
      = [StoreRequest.addDoc (getNoteCollectionPath g uid) (jsTrim s.newNoteText)
          TimestampField.serverTimestamp] ∧
    (∀ q ∈ (addNote g s r).requests, ∀ path text t,
      q ≠ StoreRequest.addDoc path text (TimestampField.clientValue t) ∧
      q ≠ StoreRequest.addDoc path "" TimestampField.serverTimestamp) ∧
    (addNote g s r).thrown = none := by
  have hdb : s.db ≠ none := reachable_db_of_userId g s hreach (by rw [hid]; simp)
  obtain ⟨d, hd⟩ := Option.ne_none_iff_exists'.mp hdb
  have hreq : (addNote g s r).requests
      = [StoreRequest.addDoc (getNoteCollectionPath g uid) (jsTrim s.newNoteText)
          TimestampField.serverTimestamp] ∧ (addNote g s r).thrown = none := by
    unfold addNote
    rw [hd, hid]
    cases r <;> simp [huid, htext]
  refine ⟨hreq.1, ?_, hreq.2⟩
  rw [hreq.1]
  intro q hq path text t
  rw [List.mem_singleton] at hq
  subst hq
  constructor
  · simp
  · intro h
    injection h with _ h2 _
    exact htext h2

/-- The state after initialisation, the provider reporting the user `u1`, and
the text ` Buy milk ` typed: `addNote` issues one request. -/
theorem addNote_issues_one_request_witness :
    jsTrim " Buy milk " = "Buy milk" ∧
    (addNote ⟨none, none⟩
      (step ⟨none, none⟩
        (step ⟨none, none⟩
          (step ⟨none, none⟩ initialState (Event.init InitOutcome.listening))
          (Event.authStateChanged (some ⟨"u1"⟩)
            ⟨Except.error "", Except.error "", none, Except.error ""⟩))
        (Event.noteChange " Buy milk "))
      (Except.ok ())).requests
      = [StoreRequest.addDoc (getNoteCollectionPath ⟨none, none⟩ "u1")
          (jsTrim " Buy milk ") TimestampField.serverTimestamp] :=
  ⟨by decide,
   (addNote_issues_one_request ⟨none, none⟩ _ "u1" (Except.ok ())
      (Reachable.next (Event.noteChange " Buy milk ")
        (Reachable.next (Event.authStateChanged (some ⟨"u1"⟩)
            ⟨Except.error "", Except.error "", none, Except.error ""⟩)
          (Reachable.next (Event.init InitOutcome.listening) Reachable.start rfl)
          (by simp [enabled, step, initEffect, initialState]))
        trivial)
      rfl (by decide) (by decide)).1⟩

/-! ### Document references -/

theorem splitSlash_plain (l : List Char) (h : '/' ∉ l) : splitSlash l = [l] := by
  induction l with
  | nil => rfl
  | cons c l ih =>
    have hc : c ≠ '/' := fun hc => h (by simp [hc])
    have hl : '/' ∉ l := fun hl => h (List.mem_cons_of_mem _ hl)
    simp [splitSlash, hc, ih hl]

theorem splitSlash_append (l r : List Char) (h : '/' ∉ l) :
    splitSlash (l ++ '/' :: r) = l :: splitSlash r := by
  induction l with
  | nil => simp [splitSlash]
  | cons c l ih =>
    have hc : c ≠ '/' := fun hc => h (by simp [hc])
    have hl : '/' ∉ l := fun hl => h (List.mem_cons_of_mem _ hl)
    simp [splitSlash, hc, ih hl]

theorem hasDoubleSlash_plain (l : List Char) (h : '/' ∉ l) : hasDoubleSlash l = false := by
  induction l with
  | nil => rfl
  | cons c l ih =>
    have hc : c ≠ '/' := fun hc => h (by simp [hc])
    have hl : '/' ∉ l := fun hl => h (List.mem_cons_of_mem _ hl)
    simp [hasDoubleSlash, hc, ih hl]

theorem hasDoubleSlash_append (l r : List Char) (h : '/' ∉ l) :
    hasDoubleSlash (l ++ '/' :: r) = ((r.head? == some '/') || hasDoubleSlash r) := by
  induction l with
  | nil => simp [hasDoubleSlash]
  | cons c l ih =>
    have hc : c ≠ '/' := fun hc => h (by simp [hc])
    have hl : '/' ∉ l := fun hl => h (List.mem_cons_of_mem _ hl)
    simp [hasDoubleSlash, hc, ih hl]

/-- The characters of the collection path. -/
theorem getNoteCollectionPath_data (g : Globals) (uid : String) :
    (getNoteCollectionPath g uid).data
      = "artifacts".data ++ '/' :: ((appId g).data ++ '/' :: ("users".data ++ '/' ::
          (uid.data ++ '/' :: "notes".data))) := by
  have h1 : ("artifacts/" : String).data = "artifacts".data ++ ['/'] := by decide
  have h2 : ("/users/" : String).data = '/' :: ("users".data ++ ['/']) := by decide
  have h3 : ("/notes" : String).data = '/' :: "notes".data := by decide
  unfold getNoteCollectionPath
  simp only [String.data_append, h1, h2, h3, List.append_assoc, List.cons_append,
    List.nil_append]

/-- With an app id and a uid that are non-empty and free of `/`, `doc` accepts
every id that is non-empty and free of `/`. -/
theorem doc_plain_id (g : Globals) (uid id : String)
    (happ : '/' ∉ (appId g).data) (happ0 : appId g ≠ "")
    (huid : '/' ∉ uid.data) (huid0 : uid ≠ "")
    (hid : '/' ∉ id.data) (hid0 : id ≠ "") :
    doc (getNoteCollectionPath g uid) id
      = Except.ok ["artifacts", appId g, "users", uid, "notes", id] := by
  have hne : ∀ x : String, x ≠ "" → x.data ≠ [] := by
    intro x hx hd
    apply hx
    cases x
    simp_all
  have hart : '/' ∉ ("artifacts" : String).data := by decide
  have husers : '/' ∉ ("users" : String).data := by decide
  have hnotes : '/' ∉ ("notes" : String).data := by decide
  have hpath0 : getNoteCollectionPath g uid ≠ "" := by
    intro h
    have := congrArg String.data h
    rw [getNoteCollectionPath_data] at this
    simp at this
  have hds : hasDoubleSlash (getNoteCollectionPath g uid).data = false := by
    rw [getNoteCollectionPath_data, hasDoubleSlash_append _ _ hart,
      hasDoubleSlash_append _ _ happ, hasDoubleSlash_append _ _ husers,
      hasDoubleSlash_append _ _ huid, hasDoubleSlash_plain _ hnotes]
    have a1 : (((appId g).data ++ '/' :: ("users".data ++ '/' ::
        (uid.data ++ '/' :: "notes".data))).head? == some '/') = false := by
      cases hd : (appId g).data with
      | nil => exact absurd hd (hne _ happ0)
      | cons c cs =>
        have hc : c ≠ '/' := fun hc => happ (by simp [hd, hc])
        simp [hc]
    have a2 : ((("users" : String).data ++ '/' :: (uid.data ++ '/' :: "notes".data)).head?
        == some '/') = false := by rfl
    have a3 : ((uid.data ++ '/' :: "notes".data).head? == some '/') = false := by
      cases hd : uid.data with
      | nil => exact absurd hd (hne _ huid0)
      | cons c cs =>
        have hc : c ≠ '/' := fun hc => huid (by simp [hd, hc])
        simp [hc]
    have a4 : ((("notes" : String).data).head? == some '/') = false := by decide
    rw [a1, a2, a3, a4]
    rfl
  have hsplit : splitSlash (getNoteCollectionPath g uid).data
      = ["artifacts".data, (appId g).data, "users".data, uid.data, "notes".data] := by
    rw [getNoteCollectionPath_data, splitSlash_append _ _ hart, splitSlash_append _ _ happ,
      splitSlash_append _ _ husers, splitSlash_append _ _ huid, splitSlash_plain _ hnotes]
  have hlen : ∀ x : String, x ≠ "" → 0 < x.length := by
    intro x hx
    exact List.length_pos.mpr (hne x hx)
  have hmk : ∀ x : String, String.mk x.data = x := fun _ => rfl
  unfold doc
  rw [if_neg hpath0]
  simp only [resourcePathFromString, hds, hasDoubleSlash_plain _ hid, hsplit,
    splitSlash_plain _ hid]
  simp [List.filter, hlen _ happ0, hlen _ huid0, hlen _ hid0, hmk]

/-! ### `deleteNote` -/

/-- C6, as stated, fails: with the identity `u1` resolved, `deleteNote("")` issues
no request, because `doc` rejects the empty id inside the `try`. -/
theorem deleteNote_empty_id_counterexample :
    truthy (step ⟨none, none⟩
        (step ⟨none, none⟩ initialState (Event.init InitOutcome.listening))
        (Event.authStateChanged (some ⟨"u1"⟩)
          ⟨Except.error "", Except.error "", none, Except.error ""⟩)).userId = true ∧
    (deleteNote ⟨none, none⟩
      (step ⟨none, none⟩
        (step ⟨none, none⟩ initialState (Event.init InitOutcome.listening))
        (Event.authStateChanged (some ⟨"u1"⟩)
          ⟨Except.error "", Except.error "", none, Except.error ""⟩))
      "" (Except.ok ())).requests = [] ∧
    (deleteNote ⟨none, none⟩
      (step ⟨none, none⟩
        (step ⟨none, none⟩ initialState (Event.init InitOutcome.listening))
        (Event.authStateChanged (some ⟨"u1"⟩)
          ⟨Except.error "", Except.error "", none, Except.error ""⟩))
      "" (Except.ok ())).logged
      = [("Error deleting note:",
          "Invalid document reference. Document references must have an even number of segments.")] := by
  decide

/-- C6, amended: in every state the component can be in, `deleteNote(id)` issues
no request when no identity is resolved (`userId` is falsy).  With a resolved
identity `uid`: when `doc` accepts the id, as it does for every non-empty id
without `/` under an app id and uid of that kind, exactly one request is
issued, the deletion of `id` in `getNoteCollectionPath(uid)`, and a rejection
of that request is caught and logged; when `doc` rejects the id, no request is
issued and the error is caught and logged.  No error leaves `deleteNote`. -/
theorem deleteNote_issues_one_request (g : Globals) (s : AppState) (id : String)
    (r : Except String Unit) (hreach : Reachable g s) :
    (truthy s.userId = false →
      (deleteNote g s id r).requests = [] ∧ (deleteNote g s id r).logged = []) ∧
    (∀ uid, s.userId = some uid → uid ≠ "" →
      (∀ ref, doc (getNoteCollectionPath g uid) id = Except.ok ref →
        (deleteNote g s id r).requests
          = [StoreRequest.deleteDoc (getNoteCollectionPath g uid) id] ∧
        (r = Except.ok () → (deleteNote g s id r).logged = []) ∧
        ∀ e, r = Except.error e →
          (deleteNote g s id r).logged = [("Error deleting note:", e)]) ∧
      (∀ e, doc (getNoteCollectionPath g uid) id = Except.error e →
        (deleteNote g s id r).requests = [] ∧
        (deleteNote g s id r).logged = [("Error deleting note:", e)]) ∧
      ('/' ∉ (appId g).data → appId g ≠ "" → '/' ∉ uid.data → '/' ∉ id.data → id ≠ "" →
        (deleteNote g s id r).requests
          = [StoreRequest.deleteDoc (getNoteCollectionPath g uid) id])) ∧
    (deleteNote g s id r).thrown = none ∧ (deleteNote g s id r).state = s := by
  have hthrown : (deleteNote g s id r).thrown = none := by
    unfold deleteNote
    cases s.db <;> cases s.userId <;> simp only [rejected]
    split
    · rfl
    · split
      · rfl
      · cases r <;> rfl
  refine ⟨?_, ?_, hthrown, deleteNote_frame g s id r⟩
  · intro hno
    unfold deleteNote
    cases hdb : s.db with
    | none => simp [rejected]
    | some d =>
      cases hu : s.userId with
      | none => simp [rejected]
      | some uid =>
        have : uid = "" := by simpa [truthy, hu] using hno
        simp [rejected, this]
  · intro uid hid huid
    have hdb : s.db ≠ none := reachable_db_of_userId g s hreach (by rw [hid]; simp)
    obtain ⟨d, hd⟩ := Option.ne_none_iff_exists'.mp hdb
    have hok : ∀ ref, doc (getNoteCollectionPath g uid) id = Except.ok ref →
        (deleteNote g s id r).requests
          = [StoreRequest.deleteDoc (getNoteCollectionPath g uid) id] ∧
        (r = Except.ok () → (deleteNote g s id r).logged = []) ∧
        ∀ e, r = Except.error e →
          (deleteNote g s id r).logged = [("Error deleting note:", e)] := by
      intro ref href
      unfold deleteNote
      rw [hd, hid]
      simp only [huid, if_false, href]
      cases r <;> simp
    refine ⟨hok, ?_, ?_⟩
    · intro e he
      unfold deleteNote
      rw [hd, hid]
      simp only [huid, if_false, he]
      simp
    · intro happ happ0 hus hids hid0
      exact (hok _ (doc_plain_id g uid id happ happ0 hus huid hids hid0)).1

/-- The state after initialisation and the provider reporting the user `u1`:
`deleteNote("r1")` issues one request, also when the store rejects it. -/
theorem deleteNote_issues_one_request_witness :
    (deleteNote ⟨none, none⟩
      (step ⟨none, none⟩
        (step ⟨none, none⟩ initialState (Event.init InitOutcome.listening))
        (Event.authStateChanged (some ⟨"u1"⟩)
          ⟨Except.error "", Except.error "", none, Except.error ""⟩))
      "r1" (Except.error "not-found")).requests
      = [StoreRequest.deleteDoc (getNoteCollectionPath ⟨none, none⟩ "u1") "r1"] :=
  ((deleteNote_issues_one_request ⟨none, none⟩ _ "r1" (Except.error "not-found")
      (Reachable.next (Event.authStateChanged (some ⟨"u1"⟩)
          ⟨Except.error "", Except.error "", none, Except.error ""⟩)
        (Reachable.next (Event.init InitOutcome.listening) Reachable.start rfl)
        (by simp [enabled, step, initEffect, initialState]))).2.1
    "u1" rfl (by decide)).2.2 (by decide) (by decide) (by decide) (by decide) (by decide)

/-- C7: `addNote` and `deleteNote` leave `notes` as it was, whatever the state,
the input and the way the request settles; an event that changes `notes` is a
snapshot delivery; and in every state some delivery does change `notes`. -/
theorem notes_single_writer (g : Globals) (s : AppState) :
    (∀ r, (addNote g s r).state.notes = s.notes) ∧
    (∀ id r, (deleteNote g s id r).state.notes = s.notes) ∧
    (∀ e, (step g s e).notes ≠ s.notes → ∃ snapshot, e = Event.snapshot snapshot) ∧
    (∃ snapshot, (step g s (Event.snapshot snapshot)).notes ≠ s.notes) := by
  refine ⟨fun r => (addNote_frame g s r).2.2, ?_, ?_, ?_⟩
  · intro id r
    rw [deleteNote_frame g s id r]
  · intro e he
    cases e with
    | init outcome => cases outcome <;> exact absurd rfl he
    | authStateChanged user env =>
      exact absurd (onAuthStateChangedCallback_frame g s user env).2 he
    | snapshot snap => exact ⟨snap, rfl⟩
    | noteChange value => exact absurd rfl he
    | addNote r => exact absurd (addNote_frame g s r).2.2 he
    | deleteNote id r => exact absurd (congrArg AppState.notes (deleteNote_frame g s id r)) he
  · cases hn : s.notes with
    | nil =>
      refine ⟨⟨[⟨"r1", ⟨"Buy milk", some ⟨100, 0⟩⟩⟩]⟩, ?_⟩
      simp [step, onSnapshotCallback, fetchedNotes, arraySort, sortInsert]
    | cons n l =>
      refine ⟨⟨[]⟩, ?_⟩
      simp [step, onSnapshotCallback, fetchedNotes, arraySort]

/-! ## Identity resolution -/

/-- C8: the provider reports no identity (the handler is called with `null`, and
`currentUser` is `null` when the `catch` block reads it), a credential token
is present, the credential-based sign-in fails and the anonymous sign-in that
follows succeeds with the identity `i`: the handler ends with
`userId = i.uid`, `isAuthReady = true` and `isLoading = false`, and no error
escapes. -/
theorem auth_fallback_resolves (g : Globals) (s : AppState) (env : AuthEnv)
    (token e : String) (i : User)
    (htoken : initialAuthToken g = some token) (hpresent : token ≠ "")
    (hfail : env.customToken = Except.error e) (hnone : env.currentUser = none)
    (hanon : env.anonymousFallback = Except.ok i) :
    (onAuthStateChangedCallback g s none env).state.userId = some i.uid ∧
    (onAuthStateChangedCallback g s none env).state.isAuthReady = true ∧
    (onAuthStateChangedCallback g s none env).state.isLoading = false ∧
    (onAuthStateChangedCallback g s none env).thrown = none ∧
    (onAuthStateChangedCallback g s none env).attempts
      = [SignIn.withCustomToken token, SignIn.anonymously] := by
  have hfirst : firstAttempt g env = (SignIn.withCustomToken token, Except.error e) := by
    unfold firstAttempt
    rw [htoken]
    simp [hpresent, hfail]
  unfold onAuthStateChangedCallback
  simp [hfirst, hnone, hanon]

/-- A run with the token `tok`, a rejected credential sign-in and the anonymous
identity `anon-1`. -/
theorem auth_fallback_resolves_witness :
    (onAuthStateChangedCallback ⟨none, some "tok"⟩
      (initEffect initialState InitOutcome.listening) none
      ⟨Except.error "auth/invalid-custom-token", Except.error "unused", none,
        Except.ok ⟨"anon-1"⟩⟩).state.userId = some "anon-1" :=
  (auth_fallback_resolves ⟨none, some "tok"⟩
    (initEffect initialState InitOutcome.listening)
    ⟨Except.error "auth/invalid-custom-token", Except.error "unused", none,
      Except.ok ⟨"anon-1"⟩⟩
    "tok" "auth/invalid-custom-token" ⟨"anon-1"⟩ rfl (by decide) rfl rfl rfl).1

/-- C9, the code at the failing input: with a token present, the credential
sign-in rejected and the anonymous fallback rejected too, the second error
leaves the handler, `setIsAuthReady(true)` and `setIsLoading(false)` are never
reached, and `App` keeps rendering the loading screen. -/
theorem auth_all_fail_escapes :
    (onAuthStateChangedCallback ⟨none, some "tok"⟩
      (initEffect initialState InitOutcome.listening) none
      ⟨Except.error "auth/invalid-custom-token", Except.error "unused", none,
        Except.error "auth/network-request-failed"⟩)
      = { state := { db := some Firestore.handle, userId := none, isAuthReady := false,
                     notes := [], newNoteText := "", isLoading := true },
          attempts := [SignIn.withCustomToken "tok", SignIn.anonymously],
          logged := [("Authentication error, signing in anonymously as fallback:",
            "auth/invalid-custom-token")],
          thrown := some "auth/network-request-failed" } ∧
    render (onAuthStateChangedCallback ⟨none, some "tok"⟩
      (initEffect initialState InitOutcome.listening) none
      ⟨Except.error "auth/invalid-custom-token", Except.error "unused", none,
        Except.error "auth/network-request-failed"⟩).state = View.connecting := by
  decide

/-- C10, as stated, fails: without a token, a rejected anonymous sign-in is
followed by a second anonymous sign-in. -/
theorem anonymous_attempted_twice_counterexample :
    (onAuthStateChangedCallback ⟨none, none⟩
      (initEffect initialState InitOutcome.listening) none
      ⟨Except.error "unused", Except.error "auth/network-request-failed", none,
        Except.ok ⟨"anon-1"⟩⟩).attempts = [SignIn.anonymously, SignIn.anonymously] ∧
    ¬ (onAuthStateChangedCallback ⟨none, none⟩
      (initEffect initialState InitOutcome.listening) none
      ⟨Except.error "unused", Except.error "auth/network-request-failed", none,
        Except.ok ⟨"anon-1"⟩⟩).attempts.count SignIn.anonymously ≤ 1 := by
  decide

/-- C10, amended: a run of the handler makes at most two sign-in attempts; a
second attempt is made exactly when the provider reported no user, the first
attempt failed and `firebaseAuth.currentUser` is `null` in the `catch` block
(the guard of line 52), and it is the anonymous fallback, after which nothing
is attempted.  So `signInAnonymously` is attempted at most once when a token
is present and at most twice when none is. -/
theorem auth_single_fallback (g : Globals) (s : AppState) (user : Option User)
    (env : AuthEnv) :
    (onAuthStateChangedCallback g s user env).attempts.length ≤ 2 ∧
    ((onAuthStateChangedCallback g s user env).attempts.length = 2 ↔
      user = none ∧ (∃ e, (firstAttempt g env).2 = Except.error e) ∧
        env.currentUser = none) ∧
    ((onAuthStateChangedCallback g s user env).attempts.length = 2 →
      (onAuthStateChangedCallback g s user env).attempts
        = [(firstAttempt g env).1, SignIn.anonymously]) ∧
    ((onAuthStateChangedCallback g s user env).attempts = [] ↔ user ≠ none) ∧
    (truthy (initialAuthToken g) = true →
      (onAuthStateChangedCallback g s user env).attempts.count SignIn.anonymously ≤ 1) ∧
    (onAuthStateChangedCallback g s user env).attempts.count SignIn.anonymously ≤ 2 := by
  have hlen : (onAuthStateChangedCallback g s user env).attempts.length ≤ 2 ∧
      ((onAuthStateChangedCallback g s user env).attempts.length = 2 ↔
        user = none ∧ (∃ e, (firstAttempt g env).2 = Except.error e) ∧
          env.currentUser = none) ∧
      ((onAuthStateChangedCallback g s user env).attempts.length = 2 →
        (onAuthStateChangedCallback g s user env).attempts
          = [(firstAttempt g env).1, SignIn.anonymously]) ∧
      ((onAuthStateChangedCallback g s user env).attempts = [] ↔ user ≠ none) ∧
      ((onAuthStateChangedCallback g s user env).attempts.length = 2 ∨
        (onAuthStateChangedCallback g s user env).attempts.length ≤ 1) := by
    unfold onAuthStateChangedCallback
    cases user with
    | some u => simp
    | none =>
      rcases hfa : firstAttempt g env with ⟨attempt, err | ok⟩
      · cases hc : env.currentUser with
        | some _ => simp [hc]
        | none => cases hf : env.anonymousFallback <;> simp [hc, hf]
      · simp
  refine ⟨hlen.1, hlen.2.1, hlen.2.2.1, hlen.2.2.2.1, ?_,
    le_trans (List.count_le_length _ _) hlen.1⟩
  intro htok
  rcases hlen.2.2.2.2 with h2 | h1
  · rw [hlen.2.2.1 h2]
    have hfirst : (firstAttempt g env).1 ≠ SignIn.anonymously := by
      unfold firstAttempt
      cases ht : initialAuthToken g with
      | none => simp [truthy, ht] at htok
      | some token =>
        have : token ≠ "" := by simpa [truthy, ht] using htok
        simp [this]
    simp [List.count_cons, hfirst]
  · exact le_trans (List.count_le_length _ _) h1

/-! ## The subscription effect -/

theorem rerender_app (g : Globals) (c : Component) (app : AppState) :
    (rerender g c app).app = app := by
  unfold rerender
  split
  · rfl
  · unfold subscriptionEffect runCleanup
    cases c.cleanup <;> dsimp only <;> cases app.db <;> cases app.userId <;>
      dsimp only <;> (try split) <;> rfl

theorem mount_singleScoped (g : Globals) : SingleScoped g (mount g) := by
  left
  simp [mount, subscriptionEffect, initialState]

/-- The effect, run with no listener attached on a mounted component. -/
theorem subscriptionEffect_singleScoped (g : Globals) (c : Component)
    (hl : c.listeners = []) (hm : c.mounted = true) :
    SingleScoped g (subscriptionEffect g c) := by
  unfold subscriptionEffect
  cases hdb : c.app.db with
  | none => left; simp [hl]
  | some d =>
    cases hu : c.app.userId with
    | none => left; simp [hl]
    | some uid =>
      dsimp only
      split
      · left; simp [hl]
      · rename_i hg
        have hg2 : ¬ uid = "" := fun h => hg (Or.inr h)
        right
        exact ⟨c.opened, uid, rfl, by simp [hl], hm, hu, hg2, Nat.lt_succ_self _⟩

/-- The cleanup detaches the listener it is paired with. -/
theorem runCleanup_detaches (c : Component)
    (h : (c.cleanup = none ∧ c.listeners = []) ∨
      (∃ k p, c.cleanup = some k ∧ c.listeners = [⟨k, p⟩])) :
    (runCleanup c).listeners = [] ∧ (runCleanup c).mounted = c.mounted := by
  unfold runCleanup
  rcases h with ⟨hc, hl⟩ | ⟨k, p, hc, hl⟩
  · simp [hc, hl]
  · simp [hc, hl]

theorem rerender_singleScoped (g : Globals) (c : Component) (app : AppState)
    (h : SingleScoped g c) (hm : c.mounted = true) :
    SingleScoped g (rerender g c app) := by
  unfold rerender
  split
  · rename_i hdeps
    unfold effectDeps at hdeps
    simp only [Prod.mk.injEq] at hdeps
    rcases h with ⟨hc, hl⟩ | ⟨k, uid, hc, hl, hm2, hid, hne, hlt⟩
    · exact Or.inl ⟨hc, hl⟩
    · exact Or.inr ⟨k, uid, hc, hl, hm2, hdeps.2.2.trans hid, hne, hlt⟩
  · have hpair : (({ c with app := app } : Component).cleanup = none ∧
          ({ c with app := app } : Component).listeners = []) ∨
        (∃ k p, ({ c with app := app } : Component).cleanup = some k ∧
          ({ c with app := app } : Component).listeners = [⟨k, p⟩]) := by
      rcases h with ⟨hc, hl⟩ | ⟨k, uid, hc, hl, _⟩
      · exact Or.inl ⟨hc, hl⟩
      · exact Or.inr ⟨k, _, hc, hl⟩
    obtain ⟨hl, hmm⟩ := runCleanup_detaches _ hpair
    exact subscriptionEffect_singleScoped g _ hl (hmm.trans hm)

theorem deliver_singleScoped (g : Globals) (c : Component) (k : Nat)
    (snapshot : QuerySnapshot) (h : SingleScoped g c) :
    SingleScoped g (deliver g c k snapshot) := by
  unfold deliver
  split
  · rename_i hat
    rcases h with ⟨hc, hl⟩ | ⟨j, uid, hc, hl, hm, hrest⟩
    · simp [hl] at hat
    · exact rerender_singleScoped g c _ (Or.inr ⟨j, uid, hc, hl, hm, hrest⟩) hm
  · exact h

theorem unmount_singleScoped (g : Globals) (c : Component) (h : SingleScoped g c) :
    SingleScoped g (unmount c) := by
  left
  unfold unmount runCleanup
  rcases h with ⟨hc, hl⟩ | ⟨k, uid, hc, hl, _⟩
  · simp [hc, hl]
  · simp [hc, hl]

theorem act_singleScoped (g : Globals) (c : Component) (a : Action)
    (h : SingleScoped g c) : SingleScoped g (act g c a) := by
  cases a with
  | event e =>
    simp only [act]
    split
    · rename_i hm
      exact rerender_singleScoped g c _ h hm
    · exact h
  | deliver k snapshot => exact deliver_singleScoped g c k snapshot h
  | unmount =>
    simp only [act]
    split
    · exact unmount_singleScoped g c h
    · exact h

theorem run_singleScoped (g : Globals) (c d : Component) (hrun : Run g c d)
    (h : SingleScoped g c) : SingleScoped g d := by
  induction hrun with
  | refl => exact h
  | tail a _ _ ih => exact act_singleScoped g _ a ih

/-! A detached listener stays detached: new listeners get new handles. -/

theorem subscriptionEffect_closed (g : Globals) (c : Component) (k : Nat)
    (h : Closed k c) : Closed k (subscriptionEffect g c) := by
  obtain ⟨hlt, hne⟩ := h
  unfold subscriptionEffect
  cases c.app.db with
  | none => exact ⟨hlt, hne⟩
  | some d =>
    cases c.app.userId with
    | none => exact ⟨hlt, hne⟩
    | some uid =>
      dsimp only
      split
      · exact ⟨hlt, hne⟩
      · refine ⟨Nat.lt_succ_of_lt hlt, ?_⟩
        intro l hl
        rcases List.mem_append.mp hl with hl | hl
        · exact hne l hl
        · rw [List.mem_singleton] at hl
          subst hl
          exact Nat.ne_of_gt hlt

theorem runCleanup_closed (c : Component) (k : Nat) (h : Closed k c) :
    Closed k (runCleanup c) := by
  obtain ⟨hlt, hne⟩ := h
  unfold runCleanup
  cases c.cleanup with
  | none => exact ⟨hlt, hne⟩
  | some j =>
    refine ⟨hlt, ?_⟩
    intro l hl
    exact hne l (List.mem_filter.mp hl).1

theorem rerender_closed (g : Globals) (c : Component) (app : AppState) (k : Nat)
    (h : Closed k c) : Closed k (rerender g c app) := by
  unfold rerender
  split
  · exact h
  · exact subscriptionEffect_closed g _ k (runCleanup_closed _ k h)

theorem act_closed (g : Globals) (c : Component) (a : Action) (k : Nat)
    (h : Closed k c) : Closed k (act g c a) := by
  cases a with
  | event e =>
    simp only [act]
    split
    · exact rerender_closed g c _ k h
    · exact h
  | deliver j snapshot =>
    simp only [act, deliver]
    split
    · exact rerender_closed g c _ k h
    · exact h
  | unmount =>
    simp only [act, unmount]
    split
    · exact runCleanup_closed _ k h
    · exact h

theorem run_closed (g : Globals) (c d : Component) (k : Nat) (hrun : Run g c d)
    (h : Closed k c) : Closed k d := by
  induction hrun with
  | refl => exact h
  | tail a _ _ ih => exact act_closed g _ a k ih

/-- The store drops a snapshot for a detached listener. -/
theorem deliver_closed (g : Globals) (c : Component) (k : Nat) (snapshot : QuerySnapshot)
    (h : Closed k c) : act g c (Action.deliver k snapshot) = c := by
  simp only [act, deliver]
  split
  · rename_i hat
    obtain ⟨l, hl, hk⟩ := List.any_eq_true.mp hat
    exact absurd (by simpa using hk) (h.2 l hl)
  · rfl

/-- C11: in every state reached from the mounted component, at most one
listener is attached to the store; an attached listener belongs to the mounted
component and is on the collection of the identity that `userId` holds; a
snapshot for the attached listener is stored; and once a listener that was
attached has been detached by the cleanup, a snapshot for it leaves `notes` as
it is, in every later state. -/
theorem subscription_single_scoped_torn_down (g : Globals) (c : Component)
    (hrun : Run g (mount g) c) :
    c.listeners.length ≤ 1 ∧
    (∀ l ∈ c.listeners, c.mounted = true ∧
      ∃ uid, c.app.userId = some uid ∧ uid ≠ "" ∧ l.path = getNoteCollectionPath g uid) ∧
    (∀ l ∈ c.listeners, ∀ snapshot,
      (act g c (Action.deliver l.handle snapshot)).app.notes = fetchedNotes snapshot) ∧
    (∀ k, k < c.opened → (∀ l ∈ c.listeners, l.handle ≠ k) →
      ∀ d, Run g c d → ∀ snapshot,
        (act g d (Action.deliver k snapshot)).app.notes = d.app.notes) := by
  have hinv : SingleScoped g c := run_singleScoped g _ c hrun (mount_singleScoped g)
  refine ⟨?_, ?_, ?_, ?_⟩
  · rcases hinv with ⟨_, hl⟩ | ⟨k, uid, _, hl, _⟩ <;> simp [hl]
  · intro l hl
    rcases hinv with ⟨_, hnil⟩ | ⟨k, uid, _, hlist, hm, hid, hne, _⟩
    · simp [hnil] at hl
    · rw [hlist, List.mem_singleton] at hl
      subst hl
      exact ⟨hm, uid, hid, hne, rfl⟩
  · intro l hl snapshot
    have hat : c.listeners.any (fun x => x.handle = l.handle) = true :=
      List.any_eq_true.mpr ⟨l, hl, by simp⟩
    simp only [act, deliver, hat, if_true]
    rw [rerender_app]
    rfl
  · intro k hk hne d hd snapshot
    rw [deliver_closed g d k snapshot (run_closed g c d k hd ⟨hk, hne⟩)]

/-- The user `u1` is reported, the listener 0 receives `r1`, then the user `u2`
is reported: one listener is attached, on the collection of `u2`, and a late
snapshot for the listener 0 leaves `notes` as it is. -/
theorem subscription_single_scoped_torn_down_witness :
    (act ⟨none, none⟩
      (act ⟨none, none⟩
        (act ⟨none, none⟩
          (act ⟨none, none⟩ (mount ⟨none, none⟩) (Action.event (Event.init InitOutcome.listening)))
          (Action.event (Event.authStateChanged (some ⟨"u1"⟩)
            ⟨Except.error "", Except.error "", none, Except.error ""⟩)))
        (Action.deliver 0 ⟨[⟨"r1", ⟨"Buy milk", some ⟨100, 0⟩⟩⟩]⟩))
      (Action.event (Event.authStateChanged (some ⟨"u2"⟩)
        ⟨Except.error "", Except.error "", none, Except.error ""⟩))).listeners
      = [⟨1, getNoteCollectionPath ⟨none, none⟩ "u2"⟩] ∧
    (act ⟨none, none⟩
      (act ⟨none, none⟩
        (act ⟨none, none⟩
          (act ⟨none, none⟩
            (act ⟨none, none⟩ (mount ⟨none, none⟩)
              (Action.event (Event.init InitOutcome.listening)))
            (Action.event (Event.authStateChanged (some ⟨"u1"⟩)
              ⟨Except.error "", Except.error "", none, Except.error ""⟩)))
          (Action.deliver 0 ⟨[⟨"r1", ⟨"Buy milk", some ⟨100, 0⟩⟩⟩]⟩))
        (Action.event (Event.authStateChanged (some ⟨"u2"⟩)
          ⟨Except.error "", Except.error "", none, Except.error ""⟩)))
      (Action.deliver 0 ⟨[⟨"r9", ⟨"late", some ⟨900, 0⟩⟩⟩]⟩)).app.notes
      = [⟨"r1", "Buy milk", some ⟨100, 0⟩⟩] :=
  ⟨by decide,
   ((subscription_single_scoped_torn_down ⟨none, none⟩ _
      (Run.tail (Action.event (Event.authStateChanged (some ⟨"u2"⟩)
          ⟨Except.error "", Except.error "", none, Except.error ""⟩))
        (Run.tail (Action.deliver 0 ⟨[⟨"r1", ⟨"Buy milk", some ⟨100, 0⟩⟩⟩]⟩)
          (Run.tail (Action.event (Event.authStateChanged (some ⟨"u1"⟩)
              ⟨Except.error "", Except.error "", none, Except.error ""⟩))
            (Run.tail (Action.event (Event.init InitOutcome.listening))
              (Run.refl _) ⟨rfl, rfl⟩)
            ⟨rfl, show some Firestore.handle ≠ none by decide⟩)
          trivial)
        ⟨rfl, show some Firestore.handle ≠ none by decide⟩)).2.2.2 0 (by decide) (by decide) _ (Run.refl _)
      ⟨[⟨"r9", ⟨"late", some ⟨900, 0⟩⟩⟩]⟩).trans (by decide)⟩

end Scratchpad

namespace AttendanceTracker

/-! ## Numbers -/

theorem roundNat_exact (m : Nat) (h : m ≤ twoPow53) : roundNat m = m := by
  rcases Nat.lt_or_ge m twoPow53 with hlt | hge
  · unfold roundNat
    rw [if_pos hlt]
  · have hm : m = twoPow53 := Nat.le_antisymm h hge
    subst hm
    decide

/-- Up to 2^53 in absolute value every integer is a number. -/
theorem toNumber_exact (n : Int) (h1 : -(twoPow53 : Int) ≤ n) (h2 : n ≤ (twoPow53 : Int)) :
    toNumber n = n := by
  cases n with
  | ofNat m =>
    have hm : m ≤ twoPow53 := by
      have : (m : Int) ≤ (twoPow53 : Int) := h2
      omega
    simp only [toNumber, roundNat_exact m hm]
  | negSucc m =>
    have hm : m + 1 ≤ twoPow53 := by
      have : -(twoPow53 : Int) ≤ -((m : Int) + 1) := by
        rw [← Int.negSucc_eq]
        exact h1
      omega
    simp only [toNumber, roundNat_exact (m + 1) hm]
    rfl

/-! ## Id freshness -/

theorem le_mathMax (xs : List Int) (x : Int) :
    x ≤ mathMax x xs ∧ ∀ y ∈ xs, y ≤ mathMax x xs := by
  unfold mathMax
  induction xs generalizing x with
  | nil => simp
  | cons z zs ih =>
    obtain ⟨h1, h2⟩ := ih (max x z)
    refine ⟨le_trans (le_max_left x z) h1, ?_⟩
    intro y hy
    rcases List.mem_cons.mp hy with rfl | hy
    · exact le_trans (le_max_right x y) h1
    · exact h2 y hy

theorem mathMax_lt (xs : List Int) (x b : Int) (hx : x < b) (hxs : ∀ y ∈ xs, y < b) :
    mathMax x xs < b := by
  unfold mathMax
  induction xs generalizing x with
  | nil => simpa using hx
  | cons z zs ih =>
    rw [List.foldl_cons]
    apply ih
    · exact max_lt hx (hxs z (List.mem_cons_self _ _))
    · intro y hy
      exact hxs y (List.mem_cons_of_mem _ hy)

/-- The initial `nextId` for a list of safe integers: greater than every id,
and between 1 - 2^53 and 2^53. -/
theorem initialNextId_safe (l : List Attendee) (hs : ∀ a ∈ l, SafeInteger a.id) :
    (∀ a ∈ l, a.id < initialNextId l) ∧
    -(twoPow53 : Int) < initialNextId l ∧ initialNextId l ≤ (twoPow53 : Int) := by
  unfold initialNextId
  cases hm : l.map (fun a => a.id) with
  | nil =>
    have hl : l = [] := List.map_eq_nil_iff.mp hm
    subst hl
    simp [twoPow53]
  | cons x xs =>
    have hmem : ∀ y ∈ x :: xs, SafeInteger y := by
      intro y hy
      rw [← hm] at hy
      obtain ⟨a, ha, rfl⟩ := List.mem_map.mp hy
      exact hs a ha
    obtain ⟨h1, h2⟩ := le_mathMax xs x
    have hx := hmem x (List.mem_cons_self _ _)
    have hub : mathMax x xs < (twoPow53 : Int) :=
      mathMax_lt xs x _ hx.2 (fun y hy => (hmem y (List.mem_cons_of_mem _ hy)).2)
    have hlb : -(twoPow53 : Int) < mathMax x xs := lt_of_lt_of_le hx.1 h1
    have hex : toNumber (mathMax x xs + 1) = mathMax x xs + 1 :=
      toNumber_exact _ (by omega) (by omega)
    simp only [hex]
    refine ⟨?_, by omega, by omega⟩
    intro a ha
    have hin : a.id ∈ x :: xs := by
      rw [← hm]
      exact List.mem_map_of_mem _ ha
    rcases List.mem_cons.mp hin with h | h
    · omega
    · have := h2 _ h
      omega

theorem renderTable_fields (s : State) :
    (renderTable s).attendees = s.attendees ∧ (renderTable s).nextId = s.nextId := by
  unfold renderTable
  split <;> exact ⟨rfl, rfl⟩

theorem init_fields (stored : Option (List Attendee)) :
    (init stored).attendees = initialAttendees stored ∧
    (init stored).nextId = initialNextId (initialAttendees stored) := by
  unfold init
  exact renderTable_fields _

theorem addAttendee_fields (s : State) (h : Scratchpad.jsTrim s.nameInput ≠ "") :
    (addAttendee s).attendees
      = s.attendees ++ [⟨s.nextId, Scratchpad.jsTrim s.nameInput, "Absent"⟩] ∧
    (addAttendee s).nextId = toNumber (s.nextId + 1) := by
  unfold addAttendee
  simp only [h, ne_eq, not_false_eq_true, if_true]
  exact renderTable_fields _

theorem addAttendee_blank (s : State) (h : Scratchpad.jsTrim s.nameInput = "") :
    addAttendee s = s := by
  unfold addAttendee
  simp [h]

theorem deleteAttendee_fields (s : State) (id : Option Int) :
    (deleteAttendee s id).attendees = s.attendees.filter (fun a => some a.id ≠ id) ∧
    (deleteAttendee s id).nextId = s.nextId := by
  unfold deleteAttendee
  exact renderTable_fields _

theorem map_id_setStatusOfFirst (id : Int) (l : List Attendee) :
    (setStatusOfFirst id l).map (fun a => a.id) = l.map (fun a => a.id) := by
  induction l with
  | nil => rfl
  | cons a l ih =>
    unfold setStatusOfFirst
    split
    · simp
    · simp [ih]

theorem cycleStatus_fields (s : State) (id : Option Int) :
    (cycleStatus s id).attendees.map (fun a => a.id) = s.attendees.map (fun a => a.id) ∧
    (cycleStatus s id).nextId = s.nextId := by
  unfold cycleStatus
  cases id with
  | none => exact ⟨rfl, rfl⟩
  | some i =>
    dsimp only
    split
    · exact ⟨map_id_setStatusOfFirst i s.attendees, rfl⟩
    · exact ⟨rfl, rfl⟩

theorem fresh_of_ids (s t : State)
    (hids : t.attendees.map (fun a => a.id) = s.attendees.map (fun a => a.id))
    (hnext : t.nextId = s.nextId) (h : Fresh s) : Fresh t := by
  intro a ha
  have hid : a.id ∈ s.attendees.map (fun a => a.id) := by
    rw [← hids]
    exact List.mem_map_of_mem _ ha
  obtain ⟨b, hb, hab⟩ := List.mem_map.mp hid
  have := h b hb
  rw [hnext]
  omega

theorem fresh_addAttendee (s : State) (h : Fresh s) (hsafe : SafeInteger s.nextId) :
    Fresh (addAttendee s) := by
  by_cases hname : Scratchpad.jsTrim s.nameInput = ""
  · rw [addAttendee_blank s hname]
    exact h
  · obtain ⟨hatt, hnext⟩ := addAttendee_fields s hname
    have hex : toNumber (s.nextId + 1) = s.nextId + 1 :=
      toNumber_exact _ (by have := hsafe.1; omega) (by have := hsafe.2; omega)
    intro a ha
    rw [hatt] at ha
    rw [hnext, hex]
    rcases List.mem_append.mp ha with ha | ha
    · have := h a ha
      omega
    · rw [List.mem_singleton] at ha
      subst ha
      simp

theorem fresh_deleteAttendee (s : State) (id : Option Int) (h : Fresh s) :
    Fresh (deleteAttendee s id) := by
  obtain ⟨hatt, hnext⟩ := deleteAttendee_fields s id
  intro a ha
  rw [hatt] at ha
  rw [hnext]
  exact h a (List.mem_filter.mp ha).1

theorem fresh_cycleStatus (s : State) (id : Option Int) (h : Fresh s) :
    Fresh (cycleStatus s id) :=
  fresh_of_ids s _ (cycleStatus_fields s id).1 (cycleStatus_fields s id).2 h

theorem nodup_addAttendee (s : State) (h : Fresh s)
    (hn : (s.attendees.map (fun a => a.id)).Nodup) :
    ((addAttendee s).attendees.map (fun a => a.id)).Nodup := by
  by_cases hname : Scratchpad.jsTrim s.nameInput = ""
  · rw [addAttendee_blank s hname]
    exact hn
  · rw [(addAttendee_fields s hname).1, List.map_append]
    refine List.Nodup.append hn (by simp) ?_
    intro x hx hx2
    simp only [List.map_cons, List.map_nil, List.mem_singleton] at hx2
    obtain ⟨b, hb, hbx⟩ := List.mem_map.mp hx
    have := h b hb
    omega

theorem nodup_deleteAttendee (s : State) (id : Option Int)
    (hn : (s.attendees.map (fun a => a.id)).Nodup) :
    ((deleteAttendee s id).attendees.map (fun a => a.id)).Nodup := by
  rw [(deleteAttendee_fields s id).1]
  exact hn.sublist (List.Sublist.map _ (List.filter_sublist _))

/-- Freshness and distinct ids hold along every sequence of events during
which `nextId` cannot pass 2^53. -/
theorem run_invariant (events : List Event) (s : State) (h : Fresh s)
    (hn : (s.attendees.map (fun a => a.id)).Nodup)
    (hlow : -(twoPow53 : Int) < s.nextId)
    (hroom : s.nextId + (events.length : Int) ≤ (twoPow53 : Int)) :
    Fresh (run s events) ∧ ((run s events).attendees.map (fun a => a.id)).Nodup := by
  unfold run
  induction events generalizing s with
  | nil => exact ⟨h, hn⟩
  | cons e es ih =>
    rw [List.foldl_cons]
    rw [List.length_cons] at hroom
    push_cast at hroom
    cases e with
    | input value => exact ih _ h hn hlow (by show s.nextId + _ ≤ _; omega)
    | addAttendee =>
      have hsafe : SafeInteger s.nextId := ⟨hlow, by omega⟩
      refine ih _ (fresh_addAttendee s h hsafe) (nodup_addAttendee s h hn) ?_ ?_
      · show -(twoPow53 : Int) < (addAttendee s).nextId
        by_cases hname : Scratchpad.jsTrim s.nameInput = ""
        · rw [addAttendee_blank s hname]
          exact hlow
        · rw [(addAttendee_fields s hname).2, toNumber_exact _ (by omega) (by omega)]
          omega
      · show (addAttendee s).nextId + _ ≤ _
        by_cases hname : Scratchpad.jsTrim s.nameInput = ""
        · rw [addAttendee_blank s hname]
          omega
        · rw [(addAttendee_fields s hname).2, toNumber_exact _ (by omega) (by omega)]
          omega
    | cycleStatus id =>
      refine ih _ (fresh_cycleStatus s id h) ?_ ?_ ?_
      · show ((cycleStatus s id).attendees.map (fun a => a.id)).Nodup
        rw [(cycleStatus_fields s id).1]
        exact hn
      · show -(twoPow53 : Int) < (cycleStatus s id).nextId
        rw [(cycleStatus_fields s id).2]
        exact hlow
      · show (cycleStatus s id).nextId + _ ≤ _
        rw [(cycleStatus_fields s id).2]
        omega
    | deleteAttendee id =>
      refine ih _ (fresh_deleteAttendee s id h) (nodup_deleteAttendee s id hn) ?_ ?_
      · show -(twoPow53 : Int) < (deleteAttendee s id).nextId
        rw [(deleteAttendee_fields s id).2]
        exact hlow
      · show (deleteAttendee s id).nextId + _ ≤ _
        rw [(deleteAttendee_fields s id).2]
        omega

/-- With distinct ids the filter of `deleteAttendee` drops at most one element. -/
theorem length_le_filter_succ (l : List Attendee) (id : Option Int)
    (hn : (l.map (fun a => a.id)).Nodup) :
    l.length ≤ (l.filter (fun a => some a.id ≠ id)).length + 1 := by
  induction l with
  | nil => simp
  | cons a l ih =>
    rw [List.map_cons, List.nodup_cons] at hn
    by_cases ha : some a.id = id
    · have hall : ∀ b ∈ l, (decide (some b.id ≠ id)) = true := by
        intro b hb
        simp only [decide_eq_true_eq]
        intro hb2
        apply hn.1
        have hab : a.id = b.id := Option.some.inj (ha.trans hb2.symm)
        rw [hab]
        exact List.mem_map_of_mem _ hb
      have hfl : l.filter (fun b => some b.id ≠ id) = l := List.filter_eq_self.mpr hall
      have hdrop : ¬ (decide (some a.id ≠ id)) = true := by simp [ha]
      rw [List.filter_cons, if_neg hdrop, hfl, List.length_cons]
    · have := ih hn.2
      have hkeep : (decide (some a.id ≠ id)) = true := by simp [ha]
      rw [List.filter_cons, if_pos hkeep, List.length_cons, List.length_cons]
      omega

/-- C12, as stated, fails.  With the stored id 2^53 the initial `nextId` is
2^53 again, not greater than every id.  With the stored id 2^53 - 1 two added
attendees both get the id 2^53, so the ids, distinct at first, are no longer
distinct, and `deleteAttendee` with that id removes two attendees. -/
theorem nextId_rounding_counterexample :
    (init (some [⟨9007199254740992, "Zed", "Absent"⟩])).nextId = 9007199254740992 ∧
    ¬ Fresh (init (some [⟨9007199254740992, "Zed", "Absent"⟩])) ∧
    ((init (some [⟨9007199254740991, "Zed", "Absent"⟩])).attendees.map (fun a => a.id)).Nodup ∧
    (run (init (some [⟨9007199254740991, "Zed", "Absent"⟩]))
        [Event.input "Ann", Event.addAttendee, Event.input "Bea", Event.addAttendee]).attendees
      = [⟨9007199254740991, "Zed", "Absent"⟩, ⟨9007199254740992, "Ann", "Absent"⟩,
         ⟨9007199254740992, "Bea", "Absent"⟩] ∧
    (deleteAttendee
        (run (init (some [⟨9007199254740991, "Zed", "Absent"⟩]))
          [Event.input "Ann", Event.addAttendee, Event.input "Bea", Event.addAttendee])
        (some 9007199254740992)).attendees
      = [⟨9007199254740991, "Zed", "Absent"⟩] := by
  decide

/-- C12, amended: for every stored list of safe integers (absolute value below
2^53), the empty list and the default list included, `nextId` is greater than
every id after initialisation; `deleteAttendee` and `cycleStatus` keep it so,
and `addAttendee` does while `nextId` is a safe integer; an attendee that is
added gets `nextId`, an id that no attendee of the list has; and when the
initial ids are pairwise distinct safe integers they are pairwise distinct,
and below `nextId`, after every sequence of events that leaves room below
2^53 (the initial `nextId` plus the number of events is at most 2^53), where
`deleteAttendee` removes at most one attendee. -/
theorem nextId_fresh :
    (∀ stored, (∀ a ∈ initialAttendees stored, SafeInteger a.id) → Fresh (init stored)) ∧
    Fresh (init none) ∧ Fresh (init (some [])) ∧
    (∀ s, Fresh s → SafeInteger s.nextId → Fresh (addAttendee s)) ∧
    (∀ s id, Fresh s → Fresh (deleteAttendee s id)) ∧
    (∀ s id, Fresh s → Fresh (cycleStatus s id)) ∧
    (∀ s, Fresh s → Scratchpad.jsTrim s.nameInput ≠ "" →
      (addAttendee s).attendees
        = s.attendees ++ [⟨s.nextId, Scratchpad.jsTrim s.nameInput, "Absent"⟩] ∧
      ∀ a ∈ s.attendees, a.id ≠ s.nextId) ∧
    (∀ stored events, (∀ a ∈ initialAttendees stored, SafeInteger a.id) →
      ((init stored).attendees.map (fun a => a.id)).Nodup →
      (init stored).nextId + (events.length : Int) ≤ (twoPow53 : Int) →
      Fresh (run (init stored) events) ∧
      ((run (init stored) events).attendees.map (fun a => a.id)).Nodup ∧
      ∀ id, (run (init stored) events).attendees.length
        ≤ (deleteAttendee (run (init stored) events) id).attendees.length + 1) := by
  have hinit : ∀ stored, (∀ a ∈ initialAttendees stored, SafeInteger a.id) →
      Fresh (init stored) ∧ -(twoPow53 : Int) < (init stored).nextId := by
    intro stored hs
    obtain ⟨hatt, hnext⟩ := init_fields stored
    obtain ⟨h1, h2, _⟩ := initialNextId_safe _ hs
    refine ⟨?_, by rw [hnext]; exact h2⟩
    intro a ha
    rw [hatt] at ha
    rw [hnext]
    exact h1 a ha
  refine ⟨fun stored hs => (hinit stored hs).1, by decide, by decide, fresh_addAttendee,
    fresh_deleteAttendee, fresh_cycleStatus, ?_, ?_⟩
  · intro s h hname
    refine ⟨(addAttendee_fields s hname).1, ?_⟩
    intro a ha
    exact Int.ne_of_lt (h a ha)
  · intro stored events hs hn hroom
    obtain ⟨hfresh, hlow⟩ := hinit stored hs
    obtain ⟨hf, hnodup⟩ := run_invariant events (init stored) hfresh hn hlow hroom
    refine ⟨hf, hnodup, ?_⟩
    intro id
    rw [(deleteAttendee_fields _ id).1]
    exact length_le_filter_succ _ id hnodup

end AttendanceTracker
